import Mathlib

/-!
Verification of the task/agent scheduling core of `ai_agent_orchestrator.py`.

The embedding below is a shallow, executable translation of the scheduling
engine: the `AIAgent` statistics (`executed_tasks`, `success_rate`,
`last_execution`, `is_active`), the `Task` record and its status field,
agent registration and task submission into the orchestrator registries,
optimal-agent selection (`_select_optimal_agent`), the pending-task scan
(`_process_pending_tasks`), the health monitor (`_monitor_agents`), and the
retry supervisor (`_execute_task_safely`).

Modelling conventions:
  * Python floats (`success_rate`, `success_threshold`) are modelled as
    exact rationals `ℚ`; timestamps (`datetime`) as integers (seconds).
  * The outcome of the external execution body (`_execute_by_type` and the
    surrounding blockchain calls) is an input to the model: each attempt is
    given an `ExecResult` saying whether the body returned `True`, returned
    `False`, raised inside `execute_task` (caught by its own handler), or
    raised past `execute_task` (caught by the handler of the supervisor).
  * Python `dict` registries are association lists with first-occurrence
    update semantics (insertion order preserved, assignment overwrites).
-/

namespace Orchestrator

/-- Task lifecycle status, the string field `Task.status` of the source
(`"pending"`, `"executing"`, `"completed"`, `"failed"`). -/
inductive Status where
  | pending
  | executing
  | completed
  | failed
deriving DecidableEq

/-- `AgentConfig` dataclass of the source. -/
structure AgentConfig where
  agent_id : String
  agent_type : String
  priority : Int
  capabilities : List String
  max_gas : Nat
  success_threshold : ℚ
  retry_attempts : Nat
deriving DecidableEq

/-- `Task` dataclass of the source (the opaque `data` payload is kept as a
list of named string fields; no scheduling decision reads it). -/
structure Task where
  task_id : String
  task_type : String
  target_contract : String
  execution_time : Int
  data : List (String × String)
  priority : Int
  is_recurring : Bool
  recurring_interval : Option Int
  assigned_agent : Option String
  status : Status
  retry_count : Nat
deriving DecidableEq

/-- Mutable state of an `AIAgent` (the `web3` handle, account and address
are external collaborators and carry no scheduling state). -/
structure AIAgent where
  config : AgentConfig
  executed_tasks : Nat
  success_rate : ℚ
  last_execution : Int
  is_active : Bool
deriving DecidableEq

/-- `AIAgent.__init__`: fresh statistics for a newly registered agent
(`executed_tasks = 0`, `success_rate = 100.0`, `last_execution = now`,
`is_active = True`). -/
def mkAgent (config : AgentConfig) (now : Int) : AIAgent :=
  { config := config
    executed_tasks := 0
    success_rate := 100
    last_execution := now
    is_active := true }

/-- `AIAgent._update_success_rate`: if `executed_tasks == 0` the rate is set
to 100 or 0 directly; otherwise
`(success_rate * (executed_tasks - 1) + (100 if success else 0)) / executed_tasks`. -/
def updateSuccessRate (a : AIAgent) (success : Bool) : AIAgent :=
  if a.executed_tasks = 0 then
    { a with success_rate := if success then 100 else 0 }
  else
    { a with success_rate :=
        (a.success_rate * ((a.executed_tasks : ℚ) - 1) +
            (if success then (100 : ℚ) else 0)) / (a.executed_tasks : ℚ) }

/-- Result of one execution attempt, as seen by the supervisor:
  * `success` — `_execute_by_type` returned `True`;
  * `failure` — `_execute_by_type` returned `False`;
  * `execError` — an exception was raised inside the body of `execute_task`
    and caught by its own `except` handler;
  * `superError` — an exception escaped `execute_task` itself and was caught
    by the handler of `_execute_task_safely` (such a result never reaches
    `executeTask`; the supervisor intercepts it). -/
inductive ExecResult where
  | success
  | failure
  | execError
  | superError
deriving DecidableEq

/-- `AIAgent.execute_task`: on success, increment `executed_tasks`, record
the outcome, stamp `last_execution`, mark the task `completed` and return
`True`; on a reported failure, record the outcome, stamp `last_execution`,
mark the task `failed` and return `False`; on an exception caught by its own
handler, record the outcome and mark the task `failed` without stamping
`last_execution` (the stamp sits inside the `try` block, after the raise
point). -/
def executeTask (a : AIAgent) (t : Task) (now : Int) (outcome : ExecResult) :
    AIAgent × Task × Bool :=
  match outcome with
  | ExecResult.success =>
      let a1 := { a with executed_tasks := a.executed_tasks + 1 }
      let a2 := updateSuccessRate a1 true
      ({ a2 with last_execution := now }, { t with status := Status.completed }, true)
  | ExecResult.failure =>
      let a1 := updateSuccessRate a false
      ({ a1 with last_execution := now }, { t with status := Status.failed }, false)
  | _ =>
      (updateSuccessRate a false, { t with status := Status.failed }, false)

/-- Fold a sequence of execution-attempt outcomes through `executeTask`,
tracking the agent statistics (the task record is threaded but the agent
state is what we observe). -/
def runOutcomes (t : Task) (now : Int) : AIAgent → List ExecResult → AIAgent
  | a, [] => a
  | a, o :: os => runOutcomes t now (executeTask a t now o).1 os

/-- Eligibility test from `_select_optimal_agent`: the agent is active, the
type tag of the task is among its capabilities, and its success rate meets
its own threshold. -/
def isEligible (task : Task) (agent : AIAgent) : Bool :=
  agent.is_active && agent.config.capabilities.contains task.task_type &&
    decide (agent.config.success_threshold ≤ agent.success_rate)

/-- The sort key of the `max` call in `_select_optimal_agent`:
`(agent.config.priority, agent.success_rate)`. -/
def selKey (a : AIAgent) : Int × ℚ :=
  (a.config.priority, a.success_rate)

/-- Python tuple comparison `key x > key y` (lexicographic). -/
def keyGt (x y : Int × ℚ) : Bool :=
  decide (y.1 < x.1) || (decide (x.1 = y.1) && decide (y.2 < x.2))

/-- Python `max(..., key=...)` over a non-empty list: the running best is
replaced only by a strictly greater key, so the first maximum wins. -/
def maxByKey : AIAgent → List AIAgent → AIAgent
  | best, [] => best
  | best, a :: rest => maxByKey (if keyGt (selKey a) (selKey best) then a else best) rest

/-- `AIOrchestrator._select_optimal_agent`: filter the registry agents
(in iteration order) by eligibility, return `None` if no agent qualifies,
otherwise the maximum under `(priority, success_rate)`. -/
def selectOptimalAgent (agents : List AIAgent) (task : Task) : Option AIAgent :=
  match agents.filter (isEligible task) with
  | [] => none
  | a :: rest => some (maxByKey a rest)

/-- Per-task body of `AIOrchestrator._process_pending_tasks`: a pending,
due task is assigned the selected agent and marked `executing` (execution
itself is dispatched fire-and-forget, modelled separately by
`executeTaskSafely`); with no eligible agent, or for a non-pending or
not-yet-due task, the record is untouched. -/
def processPendingTask (agents : List AIAgent) (now : Int) (task : Task) : Task :=
  if task.status = Status.pending ∧ task.execution_time ≤ now then
    match selectOptimalAgent agents task with
    | some best =>
        { task with assigned_agent := some best.config.agent_id, status := Status.executing }
    | none => task
  else task

/-- Health check for one agent (`_monitor_agents` loop body): warn when the
agent has been inactive for more than an hour (3600 seconds), and when its
success rate is below 80 after more than 10 executed tasks. Log lines are
the only output. -/
def monitorAgent (now : Int) (agent : AIAgent) : List String :=
  (if now - agent.last_execution > 3600 then
      [agent.config.agent_id ++ " has been inactive"] else []) ++
  (if agent.success_rate < 80 ∧ agent.executed_tasks > 10 then
      [agent.config.agent_id ++ " success rate low"] else [])

/-- `AIOrchestrator._monitor_agents`: iterate the agent registry, emitting
warnings; every statement of the source body is a read or a log call, so the
registry is returned as the (unchanged) state component. -/
def monitorAgents (agents : List AIAgent) (now : Int) : List AIAgent × List String :=
  (agents, agents.foldr (fun ag acc => monitorAgent now ag ++ acc) [])

/-- Orchestrator registries touched by one tick (the `workflows` map is
read by a `pass` body only). -/
structure OrchState where
  agents : List AIAgent
  tasks : List Task
deriving DecidableEq

/-- One synchronous cycle of `run_orchestration_loop`: scan pending tasks
(assigning and marking due ones), then run the health monitor; the warnings
are returned next to the new state. -/
def orchestratorTick (s : OrchState) (now : Int) : OrchState × List String :=
  let tasks1 := s.tasks.map (processPendingTask s.agents now)
  let monitored := monitorAgents s.agents now
  ({ agents := monitored.1, tasks := tasks1 }, monitored.2)

/-- Python `dict` lookup on an insertion-ordered association list. -/
def dictGet {α : Type} (m : List (String × α)) (k : String) : Option α :=
  match m with
  | [] => none
  | p :: rest => if p.1 = k then some p.2 else dictGet rest k

/-- Python `dict` assignment `m[k] = v`: overwrite the entry in place when
the key exists, append otherwise. -/
def dictSet {α : Type} (m : List (String × α)) (k : String) (v : α) : List (String × α) :=
  match m with
  | [] => [(k, v)]
  | p :: rest => if p.1 = k then (k, v) :: rest else p :: dictSet rest k v

/-- `AIOrchestrator.register_agent`: build a fresh agent and assign it into
`self.agents[config.agent_id]` (no duplicate check in the source). -/
def registerAgent (agents : List (String × AIAgent)) (config : AgentConfig) (now : Int) :
    List (String × AIAgent) :=
  dictSet agents config.agent_id (mkAgent config now)

/-- `AIOrchestrator.schedule_task`: assign `self.tasks[task.task_id] = task`
(no duplicate check in the source). -/
def scheduleTask (tasks : List (String × Task)) (task : Task) : List (String × Task) :=
  dictSet tasks task.task_id task

/-- Observable result of one retry-supervised run: final agent and task
state, number of loop iterations performed, total backoff slept, and the
status of the task as it stood after each attempt. -/
structure RunResult where
  agent : AIAgent
  task : Task
  attemptsMade : Nat
  totalBackoff : Nat
  statusTrace : List Status
deriving DecidableEq

/-- Loop body of `AIOrchestrator._execute_task_safely`
(`for attempt in range(max_retries + 1)`), with `fuel` the number of
remaining iterations (`executeTaskSafely` starts it at `max_retries + 1`):
an attempt whose `execute_task` call raises past its own handler
(`superError`) touches neither agent nor task unless it is the final
attempt, in which case the task is forced to `failed`; otherwise the
attempt runs `executeTask`, breaking on success, sleeping `2 ^ attempt`
units before retrying when attempts remain, and stopping after the final
attempt. -/
def execLoop (results : Nat → ExecResult) (maxRetries : Nat) (now : Int) :
    Nat → Nat → AIAgent → Task → RunResult
  | 0, _, agent, task => ⟨agent, task, 0, 0, []⟩
  | fuel + 1, attempt, agent, task =>
    if results attempt = ExecResult.superError then
      if attempt = maxRetries then
        ⟨agent, { task with status := Status.failed }, 1, 0, [Status.failed]⟩
      else
        let rest := execLoop results maxRetries now fuel (attempt + 1) agent task
        ⟨rest.agent, rest.task, rest.attemptsMade + 1, rest.totalBackoff,
          task.status :: rest.statusTrace⟩
    else
      let step := executeTask agent task now (results attempt)
      if step.2.2 then
        ⟨step.1, step.2.1, 1, 0, [(step.2.1).status]⟩
      else if attempt < maxRetries then
        let rest := execLoop results maxRetries now fuel (attempt + 1) step.1 step.2.1
        ⟨rest.agent, rest.task, rest.attemptsMade + 1, 2 ^ attempt + rest.totalBackoff,
          (step.2.1).status :: rest.statusTrace⟩
      else
        ⟨step.1, step.2.1, 1, 0, [(step.2.1).status]⟩

/-- `AIOrchestrator._execute_task_safely`: run the attempt loop with
`max_retries = agent.config.retry_attempts`, i.e. `retry_attempts + 1`
iterations available, starting at attempt 0. -/
def executeTaskSafely (agent : AIAgent) (task : Task) (results : Nat → ExecResult)
    (now : Int) : RunResult :=
  execLoop results agent.config.retry_attempts now (agent.config.retry_attempts + 1) 0 agent task

/-- A concrete task used by the concrete evaluations below. -/
def sampleTask : Task :=
  { task_id := "t1"
    task_type := "TOKEN_DISTRIBUTION"
    target_contract := "0xc"
    execution_time := 0
    data := []
    priority := 1
    is_recurring := false
    recurring_interval := none
    assigned_agent := none
    status := Status.pending
    retry_count := 0 }

/-- A concrete agent configuration used by the concrete evaluations below. -/
def sampleConfig : AgentConfig :=
  { agent_id := "agent_a"
    agent_type := "TOKEN_MANAGEMENT"
    priority := 1
    capabilities := ["TOKEN_DISTRIBUTION"]
    max_gas := 2000000
    success_threshold := 50
    retry_attempts := 1 }

example :
    (runOutcomes sampleTask 0 (mkAgent sampleConfig 0)
      [ExecResult.success, ExecResult.failure]).success_rate = 0 := by
  norm_num [runOutcomes, executeTask, updateSuccessRate, mkAgent, sampleConfig, sampleTask]

/-- A second configuration sharing the identifier of `sampleConfig` but
differing in priority, to exercise duplicate registration. -/
def dupConfig : AgentConfig :=
  { sampleConfig with priority := 9 }

/-- A second task sharing the identifier of `sampleTask` but differing in
priority, to exercise duplicate submission. -/
def dupTask : Task :=
  { sampleTask with priority := 9 }

/-- An agent configuration that cannot execute `sampleTask` (its capability
set lacks the type tag of the task). -/
def otherConfig : AgentConfig :=
  { agent_id := "agent_b"
    agent_type := "LIQUIDITY_MANAGEMENT"
    priority := 2
    capabilities := ["LIQUIDITY_MANAGEMENT"]
    max_gas := 3000000
    success_threshold := 90
    retry_attempts := 2 }

lemma updateSuccessRate_executed (a : AIAgent) (s : Bool) :
    (updateSuccessRate a s).executed_tasks = a.executed_tasks := by
  unfold updateSuccessRate
  split <;> rfl

lemma executeTask_executed (a : AIAgent) (t : Task) (now : Int) (o : ExecResult) :
    (executeTask a t now o).1.executed_tasks =
      a.executed_tasks + (if o = ExecResult.success then 1 else 0) := by
  cases o <;> simp [executeTask, updateSuccessRate_executed]

lemma dictGet_dictSet_same {α : Type} (m : List (String × α)) (k : String) (v : α) :
    dictGet (dictSet m k v) k = some v := by
  induction m with
  | nil => simp [dictSet, dictGet]
  | cons p rest ih =>
      by_cases h : p.1 = k
      · simp [dictSet, dictGet, h]
      · simp [dictSet, dictGet, h, ih]

lemma dictGet_dictSet_ne {α : Type} (m : List (String × α)) (k k' : String) (v : α)
    (h : k' ≠ k) : dictGet (dictSet m k v) k' = dictGet m k' := by
  induction m with
  | nil =>
      simp only [dictSet, dictGet]
      rw [if_neg (fun hh => h (Eq.symm hh))]
  | cons p rest ih =>
      by_cases hp : p.1 = k
      · simp only [dictSet, if_pos hp, dictGet]
        rw [if_neg (fun hh => h (Eq.symm hh)), if_neg (fun hh => h (Eq.symm (hp ▸ hh)))]
      · simp only [dictSet, if_neg hp, dictGet]
        split <;> simp [ih]

lemma processPendingTask_no_eligible (agents : List AIAgent) (now : Int) (task : Task)
    (h : agents.filter (isEligible task) = []) :
    processPendingTask agents now task = task := by
  have hsel : selectOptimalAgent agents task = none := by
    unfold selectOptimalAgent
    rw [h]
  unfold processPendingTask
  rw [hsel]
  split <;> rfl

lemma updateSuccessRate_range (a : AIAgent) (s : Bool)
    (h0 : 0 ≤ a.success_rate) (h1 : a.success_rate ≤ 100) :
    0 ≤ (updateSuccessRate a s).success_rate ∧ (updateSuccessRate a s).success_rate ≤ 100 := by
  unfold updateSuccessRate
  by_cases hz : a.executed_tasks = 0
  · simp only [hz, if_pos, if_true]
    cases s <;> norm_num
  · simp only [hz, if_false, ite_false]
    have hn : (1 : ℚ) ≤ (a.executed_tasks : ℚ) := by
      exact_mod_cast Nat.one_le_iff_ne_zero.mpr hz
    have hpos : (0 : ℚ) < (a.executed_tasks : ℚ) := by linarith
    constructor
    · apply div_nonneg _ (le_of_lt hpos)
      cases s <;> simp <;> nlinarith
    · rw [div_le_iff₀ hpos]
      cases s <;> simp <;> nlinarith

/-- Claim C1 (code bug witness): evaluating the embedded
`execute_task` / `_update_success_rate` code on a fresh agent. After the
outcome sequence success-then-failure the reliability is 0, and after
failure-then-success it is 100, while the claimed formula
`100 * successes / N` gives 50 in both cases: the code divides by
`executed_tasks`, which counts only successes, so the rate is neither the
outcome mean nor order-independent. -/
theorem success_rate_not_outcome_mean :
    (runOutcomes sampleTask 0 (mkAgent sampleConfig 0)
        [ExecResult.success, ExecResult.failure]).success_rate = 0 ∧
    (runOutcomes sampleTask 0 (mkAgent sampleConfig 0)
        [ExecResult.failure, ExecResult.success]).success_rate = 100 ∧
    (100 : ℚ) * 1 / 2 = 50 ∧ (0 : ℚ) ≠ 50 ∧ (100 : ℚ) ≠ 50 := by
  norm_num [runOutcomes, executeTask, updateSuccessRate, mkAgent, sampleConfig]

/-- Claim C3 (counterexample): registering a configuration whose identifier
is already present does not fail and does not leave the existing entry
unchanged — the entry is silently replaced; likewise for task submission. -/
theorem duplicate_registration_overwrites :
    dictGet (registerAgent (registerAgent [] sampleConfig 0) dupConfig 0) "agent_a"
        = some (mkAgent dupConfig 0) ∧
    mkAgent dupConfig 0 ≠ mkAgent sampleConfig 0 ∧
    dictGet (scheduleTask (scheduleTask [] sampleTask) dupTask) "t1" = some dupTask ∧
    dupTask ≠ sampleTask := by
  refine ⟨by decide, by decide, by decide, by decide⟩

/-- Claim C3 (amended): `register_agent` and `schedule_task` perform a bare
dictionary assignment: a duplicate identifier silently overwrites the
existing registry entry with the new one (no `DuplicateAgentError` or
`DuplicateTaskError` exists in the code), and entries under every other
identifier are untouched. -/
theorem registry_overwrite_semantics (agents : List (String × AIAgent))
    (config : AgentConfig) (now : Int) (tasks : List (String × Task)) (task : Task) :
    dictGet (registerAgent agents config now) config.agent_id = some (mkAgent config now) ∧
    (∀ k, k ≠ config.agent_id → dictGet (registerAgent agents config now) k = dictGet agents k) ∧
    dictGet (scheduleTask tasks task) task.task_id = some task ∧
    (∀ k, k ≠ task.task_id → dictGet (scheduleTask tasks task) k = dictGet tasks k) :=
  ⟨dictGet_dictSet_same agents config.agent_id (mkAgent config now),
   fun k hk => dictGet_dictSet_ne agents config.agent_id k (mkAgent config now) hk,
   dictGet_dictSet_same tasks task.task_id task,
   fun k hk => dictGet_dictSet_ne tasks task.task_id k task hk⟩

theorem registry_overwrite_semantics_witness :
    dictGet (registerAgent [] sampleConfig 0) sampleConfig.agent_id
        = some (mkAgent sampleConfig 0) ∧
    dictGet (registerAgent [] sampleConfig 0) "agent_zz"
        = dictGet ([] : List (String × AIAgent)) "agent_zz" := by
  obtain ⟨h1, h2, h3, h4⟩ := registry_overwrite_semantics [] sampleConfig 0 [] sampleTask
  exact ⟨h1, h2 "agent_zz" (by decide)⟩

/-- Claim C6: a pending task with an empty eligible set is left entirely
unchanged by the pending-task scan of a tick — in particular it stays
`pending` — and this persists across any sequence of ticks (each with its
own registry snapshot and clock) as long as the eligible set stays empty;
no step moves it to `failed`. -/
theorem no_eligible_agent_stays_pending (task : Task)
    (envs : List (List AIAgent × Int))
    (_hp : task.status = Status.pending)
    (he : ∀ e ∈ envs, e.1.filter (isEligible task) = []) :
    List.foldl (fun t e => processPendingTask e.1 e.2 t) task envs = task := by
  induction envs with
  | nil => rfl
  | cons e es ih =>
      have hstep : processPendingTask e.1 e.2 task = task :=
        processPendingTask_no_eligible e.1 e.2 task (he e (List.mem_cons_self e es))
      calc List.foldl (fun t e => processPendingTask e.1 e.2 t) task (e :: es)
          = List.foldl (fun t e => processPendingTask e.1 e.2 t)
              (processPendingTask e.1 e.2 task) es := rfl
        _ = List.foldl (fun t e => processPendingTask e.1 e.2 t) task es := by rw [hstep]
        _ = task := ih (fun e' he' => he e' (List.mem_cons_of_mem e he'))

theorem no_eligible_agent_stays_pending_witness :
    List.foldl (fun t e => processPendingTask e.1 e.2 t) sampleTask
        [([mkAgent otherConfig 0], 0), ([], 5)] = sampleTask :=
  no_eligible_agent_stays_pending sampleTask [([mkAgent otherConfig 0], 0), ([], 5)]
    (by decide) (by decide)

/-- Claim C8: the reliability percentage always lies in [0, 100]: a fresh
agent starts at 100, and one recorded attempt outcome of any kind
(success, reported failure, or caught exception) maps a rate in [0, 100]
to a rate in [0, 100]. -/
theorem success_rate_in_range :
    (∀ config now, 0 ≤ (mkAgent config now).success_rate ∧
        (mkAgent config now).success_rate ≤ 100) ∧
    (∀ a t now o, 0 ≤ a.success_rate → a.success_rate ≤ 100 →
        0 ≤ (executeTask a t now o).1.success_rate ∧
        (executeTask a t now o).1.success_rate ≤ 100) := by
  constructor
  · intro config now
    constructor <;> norm_num [mkAgent]
  · intro a t now o h0 h1
    cases o
    case success =>
      have h := updateSuccessRate_range { a with executed_tasks := a.executed_tasks + 1 } true
        (by simpa using h0) (by simpa using h1)
      simpa [executeTask] using h
    case failure =>
      simpa [executeTask] using updateSuccessRate_range a false h0 h1
    case execError =>
      simpa [executeTask] using updateSuccessRate_range a false h0 h1
    case superError =>
      simpa [executeTask] using updateSuccessRate_range a false h0 h1

theorem success_rate_in_range_witness :
    0 ≤ (executeTask (mkAgent sampleConfig 0) sampleTask 0 ExecResult.failure).1.success_rate ∧
    (executeTask (mkAgent sampleConfig 0) sampleTask 0 ExecResult.failure).1.success_rate ≤ 100 :=
  success_rate_in_range.2 (mkAgent sampleConfig 0) sampleTask 0 ExecResult.failure
    (by norm_num [mkAgent]) (by norm_num [mkAgent])

/-- Claim C9: the health monitor is read-only: its state component returns
the agent registry unchanged, and a tick containing the monitor pass leaves
the agents exactly as they were and produces exactly the task updates the
pending-task scan alone would produce — the warnings are output only. -/
theorem monitor_is_readonly (s : OrchState) (now : Int) :
    (monitorAgents s.agents now).1 = s.agents ∧
    (orchestratorTick s now).1.agents = s.agents ∧
    (orchestratorTick s now).1.tasks = s.tasks.map (processPendingTask s.agents now) :=
  ⟨rfl, rfl, rfl⟩

/-- Claim C10: the cumulative executed-task counter counts successful
attempts only: one attempt increments it exactly when the execution body
succeeded, and leaves it unchanged on a reported failure or an exception;
hence after any outcome sequence it equals its initial value plus the
number of successes in the sequence. -/
theorem executed_tasks_counts_successes :
    (∀ a t now o, (executeTask a t now o).1.executed_tasks =
        a.executed_tasks + (if o = ExecResult.success then 1 else 0)) ∧
    (∀ t now os a, (runOutcomes t now a os).executed_tasks =
        a.executed_tasks + os.count ExecResult.success) := by
  refine ⟨executeTask_executed, ?_⟩
  intro t now os
  induction os with
  | nil => intro a; simp [runOutcomes]
  | cons o os ih =>
      intro a
      rw [runOutcomes, ih, executeTask_executed, List.count_cons]
      cases o <;> simp_arith

/-- A configuration that can also execute `sampleTask` but at a higher
priority than `sampleConfig` (the selection scenario of the spec). -/
def highConfig : AgentConfig :=
  { agent_id := "agent_high"
    agent_type := "TOKEN_MANAGEMENT"
    priority := 2
    capabilities := ["TOKEN_DISTRIBUTION"]
    max_gas := 2000000
    success_threshold := 50
    retry_attempts := 3 }

lemma keyGt_iff (x y : Int × ℚ) :
    keyGt x y = true ↔ (y.1 < x.1 ∨ (x.1 = y.1 ∧ y.2 < x.2)) := by
  simp [keyGt]

lemma keyGt_eq_false_iff (x y : Int × ℚ) :
    keyGt x y = false ↔ (x.1 < y.1 ∨ (x.1 = y.1 ∧ x.2 ≤ y.2)) := by
  rw [Bool.eq_false_iff, Ne, keyGt_iff]
  constructor
  · intro h
    push_neg at h
    obtain ⟨h1, h2⟩ := h
    rcases lt_trichotomy x.1 y.1 with hlt | heq | hgt
    · exact Or.inl hlt
    · exact Or.inr ⟨heq, h2 heq⟩
    · exact absurd hgt (not_lt.mpr h1)
  · intro h hc
    rcases h with h | ⟨heq, hle⟩
    · rcases hc with hc | ⟨hc1, hc2⟩
      · exact absurd (lt_trans h hc) (lt_irrefl _)
      · exact absurd h (by rw [hc1]; exact lt_irrefl _)
    · rcases hc with hc | ⟨hc1, hc2⟩
      · rw [heq] at hc
        exact absurd hc (lt_irrefl _)
      · exact absurd hc2 (not_lt.mpr hle)

lemma keyGt_irrefl (x : Int × ℚ) : keyGt x x = false := by
  rw [keyGt_eq_false_iff]
  exact Or.inr ⟨rfl, le_refl _⟩

lemma keyGt_false_trans {x y z : Int × ℚ} (h1 : keyGt x y = false)
    (h2 : keyGt y z = false) : keyGt x z = false := by
  rw [keyGt_eq_false_iff] at h1 h2 ⊢
  rcases h1 with h1 | ⟨e1, l1⟩ <;> rcases h2 with h2 | ⟨e2, l2⟩
  · exact Or.inl (lt_trans h1 h2)
  · exact Or.inl (e2 ▸ h1)
  · exact Or.inl (e1 ▸ h2)
  · exact Or.inr ⟨e1.trans e2, le_trans l1 l2⟩

lemma keyGt_false_of_gt_le {x y z : Int × ℚ} (h1 : keyGt x y = true)
    (h2 : keyGt x z = false) : keyGt y z = false := by
  rw [keyGt_iff] at h1
  rw [keyGt_eq_false_iff] at h2 ⊢
  rcases h1 with h1 | ⟨e1, l1⟩ <;> rcases h2 with h2 | ⟨e2, l2⟩
  · exact Or.inl (lt_trans h1 h2)
  · exact Or.inl (e2 ▸ h1)
  · exact Or.inl (by rw [← e1]; exact h2)
  · exact Or.inr ⟨e1.symm.trans e2, le_of_lt (lt_of_lt_of_le l1 l2)⟩

lemma maxByKey_mem : ∀ (l : List AIAgent) (best : AIAgent),
    maxByKey best l = best ∨ maxByKey best l ∈ l := by
  intro l
  induction l with
  | nil => intro best; exact Or.inl rfl
  | cons a rest ih =>
      intro best
      rw [maxByKey]
      by_cases h : keyGt (selKey a) (selKey best) = true
      · rw [if_pos h]
        rcases ih a with h1 | h1
        · refine Or.inr ?_
          rw [h1]
          exact List.mem_cons_self a rest
        · exact Or.inr (List.mem_cons_of_mem a h1)
      · rw [if_neg h]
        rcases ih best with h1 | h1
        · exact Or.inl h1
        · exact Or.inr (List.mem_cons_of_mem a h1)

lemma maxByKey_max : ∀ (l : List AIAgent) (best b : AIAgent),
    (b = best ∨ b ∈ l) → keyGt (selKey b) (selKey (maxByKey best l)) = false := by
  intro l
  induction l with
  | nil =>
      intro best b hb
      rcases hb with rfl | h
      · exact keyGt_irrefl _
      · cases h
  | cons a rest ih =>
      intro best b hb
      rw [maxByKey]
      by_cases h : keyGt (selKey a) (selKey best) = true
      · rw [if_pos h]
        rcases hb with rfl | hmem
        · exact keyGt_false_of_gt_le h (ih a a (Or.inl rfl))
        · rcases List.mem_cons.mp hmem with hba | hr
          · rw [hba]
            exact ih a a (Or.inl rfl)
          · exact ih a b (Or.inr hr)
      · rw [if_neg h]
        rcases hb with rfl | hmem
        · exact ih b b (Or.inl rfl)
        · rcases List.mem_cons.mp hmem with hba | hr
          · rw [hba]
            exact keyGt_false_trans (Bool.eq_false_iff.mpr h) (ih best best (Or.inl rfl))
          · exact ih best b (Or.inr hr)

/-- Claim C5: `_select_optimal_agent` returns no agent exactly when the
eligible set (active, capable, reliability at or above own threshold) is
empty, and otherwise returns an eligible agent from the registry that no
eligible agent strictly exceeds in the lexicographic
(priority, reliability) key; the choice is a pure function of the registry
iteration order, hence deterministic. -/
theorem agent_selection_optimal (agents : List AIAgent) (task : Task) :
    (selectOptimalAgent agents task = none ↔ agents.filter (isEligible task) = []) ∧
    (∀ a, selectOptimalAgent agents task = some a →
      a ∈ agents ∧ isEligible task a = true ∧
      ∀ b ∈ agents, isEligible task b = true → keyGt (selKey b) (selKey a) = false) := by
  constructor
  · unfold selectOptimalAgent
    cases hf : agents.filter (isEligible task) with
    | nil => simp
    | cons x xs => simp
  · intro a ha
    unfold selectOptimalAgent at ha
    cases hf : agents.filter (isEligible task) with
    | nil => rw [hf] at ha; cases ha
    | cons x xs =>
        rw [hf] at ha
        have hmax : maxByKey x xs = a := by injection ha
        have hafilter : a ∈ agents.filter (isEligible task) := by
          rw [hf]
          rcases maxByKey_mem xs x with h | h
          · rw [← hmax, h]
            exact List.mem_cons_self x xs
          · rw [← hmax]
            exact List.mem_cons_of_mem x h
        obtain ⟨hmem, helig⟩ := List.mem_filter.mp hafilter
        refine ⟨hmem, helig, ?_⟩
        intro b hb heb
        have hbfilter : b ∈ agents.filter (isEligible task) :=
          List.mem_filter.mpr ⟨hb, heb⟩
        rw [hf] at hbfilter
        rw [← hmax]
        rcases List.mem_cons.mp hbfilter with rfl | hr
        · exact maxByKey_max xs b b (Or.inl rfl)
        · exact maxByKey_max xs x b (Or.inr hr)

theorem agent_selection_optimal_witness :
    mkAgent highConfig 0 ∈ [mkAgent highConfig 0, mkAgent sampleConfig 0] ∧
    isEligible sampleTask (mkAgent highConfig 0) = true ∧
    keyGt (selKey (mkAgent sampleConfig 0)) (selKey (mkAgent highConfig 0)) = false := by
  obtain ⟨hm, he, hmax⟩ :=
    (agent_selection_optimal [mkAgent highConfig 0, mkAgent sampleConfig 0] sampleTask).2
      (mkAgent highConfig 0) (by decide)
  exact ⟨hm, he, hmax (mkAgent sampleConfig 0) (by decide) (by decide)⟩

/-- `sampleTask` as it stands right after dispatch (marked `executing`). -/
def executingTask : Task :=
  { sampleTask with status := Status.executing }

/-- `sampleTask` in the `completed` terminal state. -/
def completedTask : Task :=
  { sampleTask with status := Status.completed }

/-- Attempt outcomes: a reported failure on attempt 0, success on attempt 1,
failures afterwards. -/
def failThenSuccess : Nat → ExecResult :=
  fun i => if i = 1 then ExecResult.success else ExecResult.failure

lemma executeTask_snd (a : AIAgent) (t : Task) (now : Int) (o : ExecResult) :
    (executeTask a t now o).2 =
      (if o = ExecResult.success then ({ t with status := Status.completed }, true)
       else ({ t with status := Status.failed }, false)) := by
  cases o <;> rfl

lemma execLoop_all_fail (results : Nat → ExecResult) (maxRetries : Nat) (now : Int) :
    ∀ fuel attempt agent task, attempt + fuel = maxRetries →
      (∀ i, attempt ≤ i → i ≤ maxRetries → results i ≠ ExecResult.success) →
      (execLoop results maxRetries now (fuel + 1) attempt agent task).attemptsMade = fuel + 1 ∧
      (execLoop results maxRetries now (fuel + 1) attempt agent task).task.status =
        Status.failed := by
  intro fuel
  induction fuel with
  | zero =>
      intro attempt agent task heq hfail
      have ha : attempt = maxRetries := by omega
      have hns : results attempt ≠ ExecResult.success := hfail attempt (le_refl _) (by omega)
      have hnl : ¬ attempt < maxRetries := by omega
      by_cases hs : results attempt = ExecResult.superError
      · rw [execLoop, if_pos hs, if_pos ha]
        exact ⟨rfl, rfl⟩
      · rw [execLoop]
        simp [hs, hns, hnl, executeTask_snd]
  | succ fuel ih =>
      intro attempt agent task heq hfail
      have hlt : attempt < maxRetries := by omega
      have hane : attempt ≠ maxRetries := by omega
      have hns : results attempt ≠ ExecResult.success := hfail attempt (le_refl _) (by omega)
      by_cases hs : results attempt = ExecResult.superError
      · have hrec := ih (attempt + 1) agent task (by omega)
          (fun i h1 h2 => hfail i (by omega) h2)
        rw [execLoop]
        simp [hs, hane, hrec.1, hrec.2]
      · have hrec := ih (attempt + 1)
          (executeTask agent task now (results attempt)).1
          (executeTask agent task now (results attempt)).2.1 (by omega)
          (fun i h1 h2 => hfail i (by omega) h2)
        simp only [executeTask_snd, if_neg hns] at hrec
        rw [execLoop]
        simp [hs, hns, hlt, executeTask_snd, hrec.1, hrec.2]

lemma execLoop_first_success (results : Nat → ExecResult) (maxRetries : Nat) (now : Int) :
    ∀ fuel attempt agent task, attempt + fuel = maxRetries →
      ∀ j, attempt ≤ j → j ≤ maxRetries → results j = ExecResult.success →
      (∀ i, attempt ≤ i → i < j → results i ≠ ExecResult.success) →
      (execLoop results maxRetries now (fuel + 1) attempt agent task).attemptsMade =
        j + 1 - attempt ∧
      (execLoop results maxRetries now (fuel + 1) attempt agent task).task.status =
        Status.completed := by
  intro fuel
  induction fuel with
  | zero =>
      intro attempt agent task heq j hj1 hj2 hjs hprev
      have hja : j = attempt := by omega
      subst hja
      constructor
      · rw [execLoop]
        simp [hjs, executeTask_snd]
      · rw [execLoop]
        simp [hjs, executeTask_snd]
  | succ fuel ih =>
      intro attempt agent task heq j hj1 hj2 hjs hprev
      by_cases hja : j = attempt
      · subst hja
        constructor
        · rw [execLoop]
          simp [hjs, executeTask_snd]
        · rw [execLoop]
          simp [hjs, executeTask_snd]
      · have hj1' : attempt + 1 ≤ j := by omega
        have hns : results attempt ≠ ExecResult.success := hprev attempt (le_refl _) (by omega)
        have hlt : attempt < maxRetries := by omega
        have hane : attempt ≠ maxRetries := by omega
        by_cases hs : results attempt = ExecResult.superError
        · have hrec := ih (attempt + 1) agent task (by omega) j hj1' hj2 hjs
            (fun i h1 h2 => hprev i (by omega) h2)
          constructor
          · rw [execLoop]
            simp [hs, hane, hrec.1]
            omega
          · rw [execLoop]
            simp [hs, hane, hrec.2]
        · have hrec := ih (attempt + 1)
            (executeTask agent task now (results attempt)).1
            (executeTask agent task now (results attempt)).2.1 (by omega) j hj1' hj2 hjs
            (fun i h1 h2 => hprev i (by omega) h2)
          simp only [executeTask_snd, if_neg hns] at hrec
          constructor
          · rw [execLoop]
            simp [hs, hns, hlt, executeTask_snd, hrec.1]
            omega
          · rw [execLoop]
            simp [hs, hns, hlt, executeTask_snd, hrec.2]

lemma execLoop_backoff_all_fail (results : Nat → ExecResult) (maxRetries : Nat) (now : Int) :
    ∀ fuel attempt agent task, attempt + fuel = maxRetries →
      (∀ i, attempt ≤ i → i ≤ maxRetries →
        results i = ExecResult.failure ∨ results i = ExecResult.execError) →
      (execLoop results maxRetries now (fuel + 1) attempt agent task).totalBackoff =
        ((List.range' attempt fuel).map (2 ^ ·)).sum := by
  intro fuel
  induction fuel with
  | zero =>
      intro attempt agent task heq hfail
      have hnl : ¬ attempt < maxRetries := by omega
      have hf := hfail attempt (le_refl _) (by omega)
      have hns : results attempt ≠ ExecResult.success := by
        rcases hf with hf | hf <;> simp [hf]
      have hs : results attempt ≠ ExecResult.superError := by
        rcases hf with hf | hf <;> simp [hf]
      rw [execLoop]
      simp [hs, hns, hnl, executeTask_snd]
  | succ fuel ih =>
      intro attempt agent task heq hfail
      have hlt : attempt < maxRetries := by omega
      have hf := hfail attempt (le_refl _) (by omega)
      have hns : results attempt ≠ ExecResult.success := by
        rcases hf with hf | hf <;> simp [hf]
      have hs : results attempt ≠ ExecResult.superError := by
        rcases hf with hf | hf <;> simp [hf]
      have hrec := ih (attempt + 1)
        (executeTask agent task now (results attempt)).1
        (executeTask agent task now (results attempt)).2.1 (by omega)
        (fun i h1 h2 => hfail i (by omega) h2)
      simp only [executeTask_snd, if_neg hns] at hrec
      rw [execLoop]
      simp [hs, hns, hlt, executeTask_snd, hrec, List.range'_succ]

lemma execLoop_backoff_success (results : Nat → ExecResult) (maxRetries : Nat) (now : Int) :
    ∀ fuel attempt agent task, attempt + fuel = maxRetries →
      ∀ j, attempt ≤ j → j ≤ maxRetries → results j = ExecResult.success →
      (∀ i, attempt ≤ i → i < j →
        results i = ExecResult.failure ∨ results i = ExecResult.execError) →
      (execLoop results maxRetries now (fuel + 1) attempt agent task).totalBackoff =
        ((List.range' attempt (j - attempt)).map (2 ^ ·)).sum := by
  intro fuel
  induction fuel with
  | zero =>
      intro attempt agent task heq j hj1 hj2 hjs hprev
      have hja : j = attempt := by omega
      subst hja
      rw [execLoop]
      simp [hjs, executeTask_snd]
  | succ fuel ih =>
      intro attempt agent task heq j hj1 hj2 hjs hprev
      by_cases hja : j = attempt
      · subst hja
        rw [execLoop]
        simp [hjs, executeTask_snd]
      · have hj1' : attempt + 1 ≤ j := by omega
        have hf := hprev attempt (le_refl _) (by omega)
        have hns : results attempt ≠ ExecResult.success := by
          rcases hf with hf | hf <;> simp [hf]
        have hs : results attempt ≠ ExecResult.superError := by
          rcases hf with hf | hf <;> simp [hf]
        have hlt : attempt < maxRetries := by omega
        have hrec := ih (attempt + 1)
          (executeTask agent task now (results attempt)).1
          (executeTask agent task now (results attempt)).2.1 (by omega) j hj1' hj2 hjs
          (fun i h1 h2 => hprev i (by omega) h2)
        simp only [executeTask_snd, if_neg hns] at hrec
        have hd : j - attempt = (j - (attempt + 1)) + 1 := by omega
        rw [execLoop]
        simp [hs, hns, hlt, executeTask_snd, hrec, hd, List.range'_succ]

lemma execLoop_terminal (results : Nat → ExecResult) (maxRetries : Nat) (now : Int) :
    ∀ fuel attempt agent task, attempt + fuel = maxRetries →
      (execLoop results maxRetries now (fuel + 1) attempt agent task).task.status =
          Status.completed ∨
      (execLoop results maxRetries now (fuel + 1) attempt agent task).task.status =
          Status.failed := by
  intro fuel
  induction fuel with
  | zero =>
      intro attempt agent task heq
      have hnl : ¬ attempt < maxRetries := by omega
      have ha : attempt = maxRetries := by omega
      by_cases hs : results attempt = ExecResult.superError
      · rw [execLoop, if_pos hs, if_pos ha]
        exact Or.inr rfl
      · by_cases hsu : results attempt = ExecResult.success
        · rw [execLoop]
          simp [hs, hsu, executeTask_snd]
        · rw [execLoop]
          simp [hs, hsu, hnl, executeTask_snd]
  | succ fuel ih =>
      intro attempt agent task heq
      have hlt : attempt < maxRetries := by omega
      have hane : attempt ≠ maxRetries := by omega
      by_cases hs : results attempt = ExecResult.superError
      · have hrec := ih (attempt + 1) agent task (by omega)
        rw [execLoop]
        simpa [hs, hane] using hrec
      · by_cases hsu : results attempt = ExecResult.success
        · rw [execLoop]
          simp [hs, hsu, executeTask_snd]
        · have hrec := ih (attempt + 1)
            (executeTask agent task now (results attempt)).1
            (executeTask agent task now (results attempt)).2.1 (by omega)
          simp only [executeTask_snd, if_neg hsu] at hrec
          rw [execLoop]
          simpa [hs, hsu, hlt, executeTask_snd] using hrec

/-- Claim C2 (counterexample): with one retry available and the outcome
sequence failure-then-success, the retry run records the task status as
`failed` after the first attempt and later overwrites it to `completed`:
`failed` is not terminal inside a retry run. -/
theorem failed_status_overwritten :
    (executeTaskSafely (mkAgent sampleConfig 0) executingTask failThenSuccess 0).statusTrace =
        [Status.failed, Status.completed] ∧
    (executeTaskSafely (mkAgent sampleConfig 0) executingTask failThenSuccess 0).task.status =
        Status.completed := by
  exact ⟨rfl, rfl⟩

/-- Claim C2 (amended): the status machine is
`pending → executing → {completed, failed}` and every retry run ends in
`completed` or `failed`; `completed` and `failed` are terminal with respect
to the scheduler (the pending-task scan only changes tasks whose status is
`pending`), but inside a single retry run a task marked `failed` by a
non-final failed attempt is retried and may move from `failed` to
`completed` before the run ends. -/
theorem terminal_status_semantics :
    (∀ agents now task, task.status = Status.completed ∨ task.status = Status.failed →
      processPendingTask agents now task = task) ∧
    (∀ agent task results now,
      (executeTaskSafely agent task results now).task.status = Status.completed ∨
      (executeTaskSafely agent task results now).task.status = Status.failed) := by
  constructor
  · intro agents now task h
    unfold processPendingTask
    have hne : ¬ (task.status = Status.pending ∧ task.execution_time ≤ now) := by
      rcases h with h | h <;> simp [h]
    rw [if_neg hne]
  · intro agent task results now
    unfold executeTaskSafely
    exact execLoop_terminal results agent.config.retry_attempts now
      agent.config.retry_attempts 0 agent task (by omega)

theorem terminal_status_semantics_witness :
    processPendingTask [mkAgent sampleConfig 0] 0 completedTask = completedTask ∧
    ((executeTaskSafely (mkAgent sampleConfig 0) executingTask failThenSuccess 0).task.status =
        Status.completed ∨
     (executeTaskSafely (mkAgent sampleConfig 0) executingTask failThenSuccess 0).task.status =
        Status.failed) :=
  ⟨terminal_status_semantics.1 [mkAgent sampleConfig 0] 0 completedTask (Or.inl rfl),
   terminal_status_semantics.2 (mkAgent sampleConfig 0) executingTask failThenSuccess 0⟩

/-- Claim C4: with `retry_attempts = r`, a run whose attempts never succeed
makes exactly `r + 1` attempts and ends `failed`; a run whose first success
is attempt `j` (0-indexed, `j ≤ r`) makes exactly `j + 1` attempts, stops,
and ends `completed`. -/
theorem retry_attempt_counts (agent : AIAgent) (task : Task)
    (results : Nat → ExecResult) (now : Int) :
    ((∀ i, i ≤ agent.config.retry_attempts → results i ≠ ExecResult.success) →
      (executeTaskSafely agent task results now).attemptsMade =
          agent.config.retry_attempts + 1 ∧
      (executeTaskSafely agent task results now).task.status = Status.failed) ∧
    (∀ j, j ≤ agent.config.retry_attempts → results j = ExecResult.success →
      (∀ i, i < j → results i ≠ ExecResult.success) →
      (executeTaskSafely agent task results now).attemptsMade = j + 1 ∧
      (executeTaskSafely agent task results now).task.status = Status.completed) := by
  unfold executeTaskSafely
  constructor
  · intro h
    exact execLoop_all_fail results agent.config.retry_attempts now
      agent.config.retry_attempts 0 agent task (by omega) (fun i _ h2 => h i h2)
  · intro j hj hjs hprev
    have h := execLoop_first_success results agent.config.retry_attempts now
      agent.config.retry_attempts 0 agent task (by omega) j (by omega) hj hjs
      (fun i _ h2 => hprev i h2)
    simpa using h

theorem retry_attempt_counts_witness :
    (executeTaskSafely (mkAgent otherConfig 0) sampleTask failThenSuccess 0).attemptsMade = 2 ∧
    (executeTaskSafely (mkAgent otherConfig 0) sampleTask failThenSuccess 0).task.status =
        Status.completed :=
  (retry_attempt_counts (mkAgent otherConfig 0) sampleTask failThenSuccess 0).2 1
    (by decide) (by decide) (by decide)

/-- Claim C7: in a run whose attempts all fail execution (reported failure
or caught in-body exception), the supervisor sleeps `2 ^ attempt` after each
failed attempt that has attempts remaining and nothing after the final one:
the total backoff over the `r + 1` attempts is `2^0 + 2^1 + ... + 2^(r-1)`;
when the first success is attempt `j` the total is `2^0 + ... + 2^(j-1)`,
with no delay after the success. -/
theorem backoff_schedule (agent : AIAgent) (task : Task)
    (results : Nat → ExecResult) (now : Int) :
    ((∀ i, i ≤ agent.config.retry_attempts →
        results i = ExecResult.failure ∨ results i = ExecResult.execError) →
      (executeTaskSafely agent task results now).totalBackoff =
        ((List.range agent.config.retry_attempts).map (2 ^ ·)).sum) ∧
    (∀ j, j ≤ agent.config.retry_attempts → results j = ExecResult.success →
      (∀ i, i < j → results i = ExecResult.failure ∨ results i = ExecResult.execError) →
      (executeTaskSafely agent task results now).totalBackoff =
        ((List.range j).map (2 ^ ·)).sum) := by
  unfold executeTaskSafely
  constructor
  · intro h
    have hb := execLoop_backoff_all_fail results agent.config.retry_attempts now
      agent.config.retry_attempts 0 agent task (by omega) (fun i _ h2 => h i h2)
    rw [List.range_eq_range']
    exact hb
  · intro j hj hjs hprev
    have hb := execLoop_backoff_success results agent.config.retry_attempts now
      agent.config.retry_attempts 0 agent task (by omega) j (by omega) hj hjs
      (fun i _ h2 => hprev i h2)
    rw [List.range_eq_range']
    simpa using hb

theorem backoff_schedule_witness :
    (executeTaskSafely (mkAgent otherConfig 0) sampleTask (fun _ => ExecResult.failure)
        0).totalBackoff =
      ((List.range (mkAgent otherConfig 0).config.retry_attempts).map (2 ^ ·)).sum :=
  (backoff_schedule (mkAgent otherConfig 0) sampleTask (fun _ => ExecResult.failure) 0).1
    (fun _ _ => Or.inl rfl)

end Orchestrator
